import Mathlib

/-!
Shallow embedding of the event-derivation layer of AIHyperXScan
(`src/app/api/chat/tools/hypersyncHelper.ts` and
`src/app/api/chat/tools/index.ts`), with theorems settling the
specification claims about it.

Modelling conventions:
* JavaScript `Map<string, V>` values are modelled as insertion-ordered
  association lists: `aSet` updates an existing key in place and appends a
  fresh key at the end, exactly like `Map.set`; `Array.from(map.values())`
  is `List.map Prod.snd`.
* JavaScript bigints are `Int`; hex payloads are Lean strings of hex
  characters; `BigInt.prototype.toString` is `intToDecimal`.
* A decoded log (the external decoder's output) is a `DecodedLog` carrying
  the emitting address, `topic0` and the list of decoded body values
  (`body[i].val` of the decoder output); `none` stands for a log whose
  `topic0` matched no signature of the catalog.
* Code that would throw a `TypeError` by accessing a property of `null`
  is modelled in `Option`, with `none` as the thrown error.
-/

/-! ### Association-list maps with JavaScript `Map` semantics -/

def aLookup {κ α : Type} [DecidableEq κ] : List (κ × α) → κ → Option α
  | [], _ => none
  | (k1, v) :: m, k => if k1 = k then some v else aLookup m k

def aSet {κ α : Type} [DecidableEq κ] : List (κ × α) → κ → α → List (κ × α)
  | [], k, v => [(k, v)]
  | (k1, v1) :: m, k, v =>
      if k1 = k then (k, v) :: m else (k1, v1) :: aSet m k v

theorem aLookup_aSet_self {κ α : Type} [DecidableEq κ]
    (m : List (κ × α)) (k : κ) (v : α) : aLookup (aSet m k v) k = some v := by
  induction m with
  | nil => simp [aSet, aLookup]
  | cons p m ih =>
      obtain ⟨k1, v1⟩ := p
      by_cases h : k1 = k <;> simp [aSet, aLookup, h, ih]

theorem aLookup_aSet_ne {κ α : Type} [DecidableEq κ]
    (m : List (κ × α)) (k k1 : κ) (v : α) (h : k1 ≠ k) :
    aLookup (aSet m k v) k1 = aLookup m k1 := by
  have h' : ¬k = k1 := fun h1 => h h1.symm
  induction m with
  | nil => simp [aSet, aLookup, h']
  | cons p m ih =>
      obtain ⟨k2, v2⟩ := p
      by_cases h2 : k2 = k
      · subst h2
        simp [aSet, aLookup, h']
      · by_cases h3 : k2 = k1
        · subst h3
          simp [aSet, aLookup, h2]
        · simp [aSet, aLookup, h2, h3, ih]

theorem aSet_subset {κ α : Type} [DecidableEq κ]
    (m : List (κ × α)) (k : κ) (v : α) :
    ∀ p ∈ aSet m k v, p = (k, v) ∨ p ∈ m := by
  induction m with
  | nil => simp [aSet]
  | cons q m ih =>
      obtain ⟨k1, v1⟩ := q
      intro p hp
      by_cases h : k1 = k
      · simp [aSet, h] at hp
        rcases hp with hp | hp
        · exact Or.inl (by simp [hp])
        · exact Or.inr (by simp [hp])
      · simp [aSet, h] at hp
        rcases hp with hp | hp
        · exact Or.inr (by simp [hp])
        · rcases ih p hp with h1 | h1
          · exact Or.inl h1
          · exact Or.inr (by simp [h1])

theorem aSet_keys_subset {κ α : Type} [DecidableEq κ]
    (m : List (κ × α)) (k : κ) (v : α) :
    ∀ x ∈ (aSet m k v).map Prod.fst, x = k ∨ x ∈ m.map Prod.fst := by
  intro x hx
  obtain ⟨p, hp, hpx⟩ := List.mem_map.mp hx
  rcases aSet_subset m k v p hp with h | h
  · exact Or.inl (by rw [← hpx, h])
  · exact Or.inr (List.mem_map.mpr ⟨p, h, hpx⟩)

theorem aSet_keys_nodup {κ α : Type} [DecidableEq κ]
    (m : List (κ × α)) (k : κ) (v : α) (h : (m.map Prod.fst).Nodup) :
    ((aSet m k v).map Prod.fst).Nodup := by
  induction m with
  | nil => simp [aSet]
  | cons q m ih =>
      obtain ⟨k1, v1⟩ := q
      simp only [List.map_cons, List.nodup_cons] at h
      by_cases hk : k1 = k
      · subst hk
        simpa [aSet, List.nodup_cons] using h
      · have hnotin : k1 ∉ (aSet m k v).map Prod.fst := by
          intro hmem
          rcases aSet_keys_subset m k v k1 hmem with h1 | h1
          · exact hk h1
          · exact h.1 h1
        simpa [aSet, hk, List.nodup_cons, hnotin] using ih h.2

/-! ### Decimal printing and parsing

`intToDecimal` models JavaScript `BigInt.prototype.toString` (base 10);
`parseIntDec` is the decimal parser used to read a string leaf back. -/

def digitVal (c : Char) : Nat := c.toNat - 48

def natToDigits (n : Nat) : List Char :=
  if _h : n < 10 then [Nat.digitChar n]
  else natToDigits (n / 10) ++ [Nat.digitChar (n % 10)]
  decreasing_by exact Nat.div_lt_self (by omega) (by omega)

def parseNatDigits (l : List Char) : Nat :=
  l.foldl (fun a c => a * 10 + digitVal c) 0

theorem digitVal_digitChar (d : Nat) (h : d < 10) :
    digitVal (Nat.digitChar d) = d := by
  interval_cases d <;> rfl

theorem natToDigits_ne_nil (n : Nat) : natToDigits n ≠ [] := by
  rw [natToDigits]
  split <;> simp

theorem natToDigits_head_digit (n : Nat) :
    ∀ c t, natToDigits n = c :: t → 48 ≤ c.toNat ∧ c.toNat ≤ 57 := by
  induction n using Nat.strong_induction_on with
  | _ n ih =>
      intro c t h
      rw [natToDigits] at h
      split at h
      · next hlt =>
          injection h with h1 h2
          subst h1
          interval_cases n <;> decide
      · next hge =>
          rcases hd : natToDigits (n / 10) with _ | ⟨c0, t0⟩
          · exact absurd hd (natToDigits_ne_nil _)
          · rw [hd] at h
            simp only [List.cons_append, List.cons.injEq] at h
            obtain ⟨hc, -⟩ := h
            subst hc
            exact ih (n / 10) (Nat.div_lt_self (by omega) (by omega)) c0 t0 hd

theorem parseNatDigits_append (l : List Char) (c : Char) :
    parseNatDigits (l ++ [c]) = parseNatDigits l * 10 + digitVal c := by
  simp [parseNatDigits, List.foldl_append]

theorem parseNatDigits_natToDigits (n : Nat) :
    parseNatDigits (natToDigits n) = n := by
  induction n using Nat.strong_induction_on with
  | _ n ih =>
      rw [natToDigits]
      split
      · next hlt =>
          simp [parseNatDigits, digitVal_digitChar n hlt]
      · next hge =>
          rw [parseNatDigits_append,
            ih (n / 10) (Nat.div_lt_self (by omega) (by omega)),
            digitVal_digitChar (n % 10) (Nat.mod_lt n (by omega))]
          omega

def intToDecimal (i : Int) : String :=
  if i < 0 then String.mk ('-' :: natToDigits i.natAbs)
  else String.mk (natToDigits i.toNat)

def parseIntDec (s : String) : Int :=
  match s.data with
  | [] => 0
  | c :: t =>
      if c = '-' then -(parseNatDigits t : Int) else (parseNatDigits (c :: t) : Int)

theorem parseIntDec_intToDecimal (i : Int) : parseIntDec (intToDecimal i) = i := by
  unfold intToDecimal
  split
  · next hneg =>
      show parseIntDec (String.mk ('-' :: natToDigits i.natAbs)) = i
      simp [parseIntDec, parseNatDigits_natToDigits]
      rw [abs_of_neg hneg, neg_neg]
  · next hpos =>
      rcases hd : natToDigits i.toNat with _ | ⟨c, t⟩
      · exact absurd hd (natToDigits_ne_nil _)
      · have hdig := natToDigits_head_digit i.toNat c t hd
        have hcne : ¬c = '-' := by
          intro hc
          subst hc
          exact absurd hdig (by decide)
        simp only [parseIntDec, if_neg hcne]
        rw [← hd, parseNatDigits_natToDigits]
        exact Int.toNat_of_nonneg (by omega)

/-! ### Hex payload helpers

`parseHexNat` models `parseInt(s, 16)` on well-formed hex input;
`hexPairsToBytes` models `Buffer.from(s, 'hex')` (incomplete trailing
pairs are dropped, as Node does); `asciiOfBytes` models
`buffer.toString('utf8')` on ASCII payloads (each byte below 0x80 decodes
to itself, which is all the claims exercise). -/

def hexVal (c : Char) : Nat :=
  if 97 ≤ c.toNat then c.toNat - 87
  else if 65 ≤ c.toNat then c.toNat - 55
  else c.toNat - 48

def parseHexNat (s : String) : Nat :=
  s.data.foldl (fun a c => a * 16 + hexVal c) 0

def hexPairsToBytes : List Char → List Nat
  | c1 :: c2 :: rest => (hexVal c1 * 16 + hexVal c2) :: hexPairsToBytes rest
  | _ => []

def asciiOfBytes (bs : List Nat) : String :=
  String.mk (bs.map Char.ofNat)

/-! ### JavaScript string primitives -/

/-- `s.toLowerCase()` on ASCII strings (addresses are ASCII hex). -/
def jsToLower (s : String) : String := String.mk (s.data.map Char.toLower)

/-- `s.slice(a, b)` for `0 ≤ a ≤ b`. -/
def jsSlice (s : String) (a b : Nat) : String :=
  String.mk ((s.data.drop a).take (b - a))

/-- `s.slice(2)`, stripping a `0x` prefix from a payload. -/
def jsSliceFrom2 (s : String) : String := String.mk (s.data.drop 2)

/-- `const [c] = s` : array-destructuring a string binds its first
character (as a one-character string; the empty string gives the
model of `undefined` as `""`). -/
def jsHeadString (s : String) : String := String.mk (s.data.take 1)

/-- `ethers.zeroPadValue(addr, 32)` : left-pad the hex body of a
`0x`-prefixed value with zeros to 32 bytes (64 hex characters). -/
def zeroPadValue32 (s : String) : String :=
  String.mk ('0' :: 'x' :: (List.replicate (64 - (s.data.drop 2).length) '0'
    ++ s.data.drop 2))

/-! ### Data model (`hypersyncHelper.ts`) -/

structure ChainConfig where
  name : String
  url : String
  supportsTraces : Bool
deriving DecidableEq

/-- A decoded log, as the derivation operations consume it: emitting
contract address, `topic0`, and the ordered decoded body values
(JS bigints, i.e. `body[i].val` of the external decoder's output),
plus the log metadata fields read by `getDexSwaps`. -/
structure DecodedLog where
  address : String
  topic0 : String := ""
  body : List Int := []
  transactionHash : String := ""
  blockNumber : Nat := 0
  timestamp : Nat := 0
deriving DecidableEq

structure TokenBalance where
  token : String
  balance : Int
deriving DecidableEq

structure NFTBalance where
  contractAddress : String
  tokenId : String
  standard : String
  balance : Int
deriving DecidableEq

structure DexSwap where
  transactionHash : String
  blockNumber : Nat
  timestamp : Nat
  tokenIn : String
  tokenOut : String
  amountIn : Int
  amountOut : Int
  sender : String
  recipient : String
deriving DecidableEq

structure TokenMetadata where
  address : String
  name : String
  symbol : String
  decimals : Nat
  totalSupply : Int
deriving DecidableEq

/-- The four mutable locals of `getTokenMetadata` (`name`, `symbol`,
`decimals`, `totalSupply`), at their initial default values before the
responses are processed. -/
structure MetaAcc where
  name : String
  symbol : String
  decimals : Nat
  totalSupply : Int
deriving DecidableEq

/-- A query-service client handle (`HypersyncClient.new`). `createdAt`
is a freshness stamp distinguishing separately-created handles, so that
"the same cached handle" is expressible. -/
structure HClient where
  url : String
  bearerToken : String
  createdAt : Nat
deriving DecidableEq

/-- The process-wide static registry state of `HypersyncHelper`:
the chain-id → client map, the shared decoder (modelled by its creation
stamp, `none` while never constructed), the environment API key, and a
tick counter supplying freshness stamps. -/
structure RegState where
  apiKeyEnv : Option String := none
  clients : List (Nat × HClient) := []
  decoderCreatedAt : Option Nat := none
  nextTick : Nat := 0
deriving DecidableEq

/-! ### Constants (topic hashes, chain catalog, ABI selectors) -/

def ERC20_TRANSFER_TOPIC : String :=
  "0xddf252ad1be2c89b69c2b068fc378daa952ba7f163c4a11628f55a4df523b3ef"

def ERC721_TRANSFER_TOPIC : String :=
  "0xddf252ad1be2c89b69c2b068fc378daa952ba7f163c4a11628f55a4df523b3ef"

def ERC1155_TRANSFER_SINGLE_TOPIC : String :=
  "0xc3d58168c5ae7397731d063d5bbf3d657854427343f4c083240f7aacaa2d0f62"

def ERC1155_TRANSFER_BATCH_TOPIC : String :=
  "0x4a39dc06d4c0dbc64b70af90fd698a233a518aa5d07e595d983b8c0526c8f7fb"

def SUPPORTED_CHAINS : List (Nat × ChainConfig) := [
  (1, ChainConfig.mk "Ethereum Mainnet" "https://eth.hypersync.xyz" true),
  (10, ChainConfig.mk "Optimism" "https://optimism.hypersync.xyz" false),
  (14, ChainConfig.mk "Flare" "https://flare.hypersync.xyz" false),
  (30, ChainConfig.mk "Rootstock" "https://rootstock.hypersync.xyz" false),
  (42, ChainConfig.mk "Lukso" "https://lukso.hypersync.xyz" false),
  (44, ChainConfig.mk "Crab" "https://crab.hypersync.xyz" false),
  (46, ChainConfig.mk "Darwinia" "https://darwinia.hypersync.xyz" true),
  (56, ChainConfig.mk "BSC" "https://bsc.hypersync.xyz" false),
  (97, ChainConfig.mk "BSC Testnet" "https://bsc-testnet.hypersync.xyz" false),
  (100, ChainConfig.mk "Gnosis" "https://gnosis.hypersync.xyz" false),
  (130, ChainConfig.mk "Unichain" "https://unichain.hypersync.xyz" false),
  (137, ChainConfig.mk "Polygon" "https://polygon.hypersync.xyz" false),
  (148, ChainConfig.mk "Shimmer EVM" "https://shimmer-evm.hypersync.xyz" false),
  (169, ChainConfig.mk "Manta" "https://manta.hypersync.xyz" false),
  (204, ChainConfig.mk "opBNB" "https://opbnb.hypersync.xyz" false),
  (250, ChainConfig.mk "Fantom" "https://fantom.hypersync.xyz" false),
  (252, ChainConfig.mk "Fraxtal" "https://fraxtal.hypersync.xyz" false),
  (255, ChainConfig.mk "Kroma" "https://kroma.hypersync.xyz" false),
  (288, ChainConfig.mk "Boba" "https://boba.hypersync.xyz" false),
  (324, ChainConfig.mk "ZKSync" "https://zksync.hypersync.xyz" false),
  (1088, ChainConfig.mk "Metis" "https://metis.hypersync.xyz" false),
  (1101, ChainConfig.mk "Polygon zkEVM" "https://polygon-zkevm.hypersync.xyz" false),
  (1135, ChainConfig.mk "Lisk" "https://lisk.hypersync.xyz" false),
  (1284, ChainConfig.mk "Moonbeam" "https://moonbeam.hypersync.xyz" false),
  (1287, ChainConfig.mk "Moonbase Alpha" "https://moonbase-alpha.hypersync.xyz" false),
  (1301, ChainConfig.mk "Unichain Sepolia" "https://unichain-sepolia.hypersync.xyz" false),
  (1750, ChainConfig.mk "Metall2" "https://metall2.hypersync.xyz" false),
  (1868, ChainConfig.mk "Soneium" "https://soneium.hypersync.xyz" false),
  (2818, ChainConfig.mk "Morph" "https://morph.hypersync.xyz" false),
  (4200, ChainConfig.mk "Merlin" "https://merlin.hypersync.xyz" false),
  (4201, ChainConfig.mk "Lukso Testnet" "https://lukso-testnet.hypersync.xyz" false),
  (5000, ChainConfig.mk "Mantle" "https://mantle.hypersync.xyz" false),
  (5115, ChainConfig.mk "Citrea Testnet" "https://citrea-testnet.hypersync.xyz" false),
  (7000, ChainConfig.mk "Zeta" "https://zeta.hypersync.xyz" false),
  (7560, ChainConfig.mk "Cyber" "https://cyber.hypersync.xyz" false),
  (8453, ChainConfig.mk "Base" "https://base.hypersync.xyz" false),
  (8888, ChainConfig.mk "Chiliz" "https://chiliz.hypersync.xyz" false),
  (10143, ChainConfig.mk "Monad Testnet" "https://monad-testnet.hypersync.xyz" false),
  (10200, ChainConfig.mk "Gnosis Chiado" "https://gnosis-chiado.hypersync.xyz" false),
  (11155111, ChainConfig.mk "Sepolia" "https://sepolia.hypersync.xyz" false),
  (11155420, ChainConfig.mk "Optimism Sepolia" "https://optimism-sepolia.hypersync.xyz" false),
  (17000, ChainConfig.mk "Holesky" "https://holesky.hypersync.xyz" false),
  (17864, ChainConfig.mk "MEV Commit" "https://mev-commit.hypersync.xyz" false),
  (34443, ChainConfig.mk "Mode" "https://mode.hypersync.xyz" false),
  (42161, ChainConfig.mk "Arbitrum" "https://arbitrum.hypersync.xyz" false),
  (42170, ChainConfig.mk "Arbitrum Nova" "https://arbitrum-nova.hypersync.xyz" false),
  (42220, ChainConfig.mk "Celo" "https://celo.hypersync.xyz" false),
  (43114, ChainConfig.mk "Avalanche" "https://avalanche.hypersync.xyz" false),
  (43113, ChainConfig.mk "Fuji" "https://fuji.hypersync.xyz" false),
  (48900, ChainConfig.mk "Zircuit" "https://zircuit.hypersync.xyz" false),
  (50104, ChainConfig.mk "Sophon" "https://sophon.hypersync.xyz" false),
  (57073, ChainConfig.mk "Ink" "https://ink.hypersync.xyz" false),
  (59144, ChainConfig.mk "Linea" "https://linea.hypersync.xyz" false),
  (80002, ChainConfig.mk "Polygon Amoy" "https://polygon-amoy.hypersync.xyz" false),
  (80084, ChainConfig.mk "Berachain Bartio" "https://berachain-bartio.hypersync.xyz" false),
  (80094, ChainConfig.mk "Berachain" "https://berachain.hypersync.xyz" false),
  (81457, ChainConfig.mk "Blast" "https://blast.hypersync.xyz" false),
  (84532, ChainConfig.mk "Base Sepolia" "https://base-sepolia.hypersync.xyz" false),
  (168587773, ChainConfig.mk "Blast Sepolia" "https://blast-sepolia.hypersync.xyz" false),
  (283027429, ChainConfig.mk "Extrabud" "https://extrabud.hypersync.xyz" false),
  (421614, ChainConfig.mk "Arbitrum Sepolia" "https://arbitrum-sepolia.hypersync.xyz" false),
  (531050104, ChainConfig.mk "Sophon Testnet" "https://sophon-testnet.hypersync.xyz" false),
  (534352, ChainConfig.mk "Scroll" "https://scroll.hypersync.xyz" false),
  (696969, ChainConfig.mk "Galadriel Devnet" "https://galadriel-devnet.hypersync.xyz" false),
  (1313161554, ChainConfig.mk "Aurora" "https://aurora.hypersync.xyz" false),
  (1666600000, ChainConfig.mk "Harmony Shard 0" "https://harmony-shard-0.hypersync.xyz" false),
  (7225878, ChainConfig.mk "Saakuru" "https://saakuru.hypersync.xyz" false),
  (7777777, ChainConfig.mk "Zora" "https://zora.hypersync.xyz" false)]

/-! ### ChainRegistry: `HypersyncHelper.initialize` and `getClient` -/

/-- `HypersyncHelper.initialize(chainId)` (the spec calls it
`ensureChain`): throws for a chain id absent from `SUPPORTED_CHAINS`
before touching any state; otherwise, if no client is cached for the id,
caches a fresh client bound to the chain's endpoint and, nested inside
that branch, constructs the shared decoder if it has never been
constructed. A thrown `Error` is `Except.error` of its message. -/
def ensureChain (chainId : Nat) (s : RegState) : Except String RegState :=
  match aLookup SUPPORTED_CHAINS chainId with
  | none => Except.error ("Chain ID " ++ toString chainId ++ " is not supported")
  | some cfg =>
      match aLookup s.clients chainId with
      | some _ => Except.ok s
      | none =>
          match s.decoderCreatedAt with
          | none =>
              Except.ok
                { s with
                  clients := aSet s.clients chainId
                    ⟨cfg.url, (s.apiKeyEnv).getD "your_api_key", s.nextTick⟩,
                  decoderCreatedAt := some (s.nextTick + 1),
                  nextTick := s.nextTick + 2 }
          | some _ =>
              Except.ok
                { s with
                  clients := aSet s.clients chainId
                    ⟨cfg.url, (s.apiKeyEnv).getD "your_api_key", s.nextTick⟩,
                  nextTick := s.nextTick + 1 }

/-- `HypersyncHelper.getClient(chainId)`. -/
def getClient (chainId : Nat) (s : RegState) : Except String HClient :=
  match aLookup s.clients chainId with
  | none =>
      Except.error ("Client for chain ID " ++ toString chainId ++ " not initialized")
  | some c => Except.ok c

/-- The registry state visible after a call of `ensureChain`: unchanged
when the call throws (the throw precedes every mutation). -/
def stateAfterEnsure (chainId : Nat) (s : RegState) : RegState :=
  match ensureChain chainId s with
  | Except.ok s1 => s1
  | Except.error _ => s

/-! ### QueryBuilder of `getTokenBalances` -/

structure LogSelection where
  topics : List (Option (List String))
deriving DecidableEq

/-- The parts of the declarative query built by `getTokenBalances` that
the claims speak about: the starting block and the log filters. -/
structure TBQuery where
  fromBlock : Nat
  logSelections : List LogSelection
deriving DecidableEq

/-- The query `getTokenBalances(chainId, walletAddress, fromBlock)`
builds: `fromBlock: fromBlock || 0` and one log filter
`topics: [[ERC20_TRANSFER_TOPIC], null, [paddedAddress]]` with
`paddedAddress = ethers.zeroPadValue(walletAddress.toLowerCase(), 32)`. -/
def buildTokenBalancesQuery (walletAddress : String) (fromBlock : Option Nat) :
    TBQuery :=
  { fromBlock := fromBlock.getD 0,
    logSelections := [⟨[some [ERC20_TRANSFER_TOPIC], none,
      some [zeroPadValue32 (jsToLower walletAddress)]]⟩] }

/-! ### Aggregation folds over decoded batches -/

/-- One loop iteration over a decoded batch: `if (!log) continue;` — a
`null` entry is skipped, a decoded log is fed to the aggregation step. -/
def optStep {α : Type} (f : α → DecodedLog → α) (m : α) (o : Option DecodedLog) : α :=
  match o with
  | none => m
  | some log => f m log

/-- Loop body of `getTokenBalances`:
`balances.set(token, (balances.get(token) || 0n) + amount)` with
`token = log.address` and `amount = log.body[0].val`. -/
def tbStep (m : List (String × Int)) (log : DecodedLog) : List (String × Int) :=
  aSet m log.address ((aLookup m log.address).getD 0 + log.body.headD 0)

def tbFold (logs : List (Option DecodedLog)) : List (String × Int) :=
  logs.foldl (optStep tbStep) []

/-- `getTokenBalances`, from the decoded batch on: fold the batch into the
per-token map, then return its entries as `{token, balance}` rows. -/
def getTokenBalancesOfDecoded (logs : List (Option DecodedLog)) : List TokenBalance :=
  (tbFold logs).map fun p => ⟨p.1, p.2⟩

/-- Sum of the first decoded body field over the batch's decoded events
emitted by contract `t`. -/
def sumContrib : List (Option DecodedLog) → String → Int
  | [], _ => 0
  | none :: rest, t => sumContrib rest t
  | some log :: rest, t =>
      (if log.address = t then log.body.headD 0 else 0) + sumContrib rest t

/-- Whether some decoded event of the batch was emitted by contract `t`. -/
def hasAddr : List (Option DecodedLog) → String → Bool
  | [], _ => false
  | none :: rest, t => hasAddr rest t
  | some log :: rest, t => decide (log.address = t) || hasAddr rest t

/-- Key of the NFT holdings map: the template literal
`${log.address}-${log.body[0]}` (a bigint interpolates as its decimal
string). -/
def nftKey (log : DecodedLog) : String :=
  log.address ++ "-" ++ intToDecimal (log.body.headD 0)

/-- The entry `getNFTBalances` stores for a relevant decoded log: an
ERC721-topic log stores balance exactly `1`; an ERC1155 `TransferSingle`
log stores the decoded `value` field `log.body[1]`. -/
def nftEntryOf (log : DecodedLog) : NFTBalance :=
  if log.topic0 = ERC721_TRANSFER_TOPIC then
    ⟨log.address, intToDecimal (log.body.headD 0), "ERC721", 1⟩
  else
    ⟨log.address, intToDecimal (log.body.headD 0), "ERC1155", log.body.getD 1 0⟩

/-- The decoded log falls in one of the two branches `getNFTBalances`
stores (ERC721 Transfer topic, or ERC1155 TransferSingle topic). -/
def isNFTRelevant (log : DecodedLog) : Prop :=
  log.topic0 = ERC721_TRANSFER_TOPIC ∨ log.topic0 = ERC1155_TRANSFER_SINGLE_TOPIC

instance (log : DecodedLog) : Decidable (isNFTRelevant log) := by
  unfold isNFTRelevant
  infer_instance

/-- Loop body of `getNFTBalances`. -/
def nftStep (m : List (String × NFTBalance)) (log : DecodedLog) :
    List (String × NFTBalance) :=
  if log.topic0 = ERC721_TRANSFER_TOPIC then
    aSet m (nftKey log)
      ⟨log.address, intToDecimal (log.body.headD 0), "ERC721", 1⟩
  else if log.topic0 = ERC1155_TRANSFER_SINGLE_TOPIC then
    aSet m (nftKey log)
      ⟨log.address, intToDecimal (log.body.headD 0), "ERC1155", log.body.getD 1 0⟩
  else m

def nftFold (logs : List (Option DecodedLog)) : List (String × NFTBalance) :=
  logs.foldl (optStep nftStep) []

/-- `getNFTBalances`, from the decoded batch on:
`Array.from(nftBalances.values())`. -/
def getNFTBalancesOfDecoded (logs : List (Option DecodedLog)) : List NFTBalance :=
  (nftFold logs).map Prod.snd

/-! ### `getDexSwaps` consumption of the decoded batch -/

/-- The per-log record `getDexSwaps` builds (placeholder amounts and
parties, as in the source). -/
def dexSwapOfLog (log : DecodedLog) : DexSwap :=
  ⟨log.transactionHash, log.blockNumber, log.timestamp, log.address,
    log.address, 0, 0, "0x", "0x"⟩

/-- `getDexSwaps`, from the decoded batch on:
`decodedLogs.map(log => ({...log fields...}))` with NO null check —
reading a field of a `null` entry throws a `TypeError`, so the whole call
fails (`none`) whenever the batch holds a `null`. -/
def getDexSwapsOfDecoded : List (Option DecodedLog) → Option (List DexSwap)
  | [] => some []
  | none :: _ => none
  | some log :: rest =>
      match getDexSwapsOfDecoded rest with
      | none => none
      | some swaps => some (dexSwapOfLog log :: swaps)

/-- A decoded batch with its `null` entries dropped. -/
def dropNulls (logs : List (Option DecodedLog)) : List (Option DecodedLog) :=
  (logs.filterMap id).map some

/-! ### MetadataProbe: `getTokenMetadata` -/

/-- `Object.keys(ERC20_INTERFACES)[i]`, the introspection field name of
the `i`-th parallel probe (indices beyond the four probes never occur;
they model `undefined` as `""`). -/
def fieldNameAt (i : Nat) : String :=
  match i with
  | 0 => "name"
  | 1 => "symbol"
  | 2 => "decimals"
  | 3 => "totalSupply"
  | _ => ""

/-- The `name`/`symbol` switch-case body of `getTokenMetadata`: read the
32-byte length word at hex offset 64 of the `0x`-stripped payload, then
decode that many bytes of UTF-8 payload starting at hex offset 128. -/
def decodeStringReturn (cleanOutput : String) : String :=
  let len := parseHexNat (jsSlice cleanOutput 64 128)
  asciiOfBytes (hexPairsToBytes (jsSlice cleanOutput 128 (128 + len * 2)).data)

/-- The `decimals`/`totalSupply` switch-case body: parse the first
32-byte word of the `0x`-stripped payload as a hex scalar. -/
def decodeUintReturn (cleanOutput : String) : Nat :=
  parseHexNat (jsSlice cleanOutput 0 64)

/-- One iteration of the `responses.forEach` of `getTokenMetadata`.
`const [field] = Object.keys(this.ERC20_INTERFACES)[index]`
array-destructures the key STRING, so `field` is bound to the key's
first character; the `switch (field)` then compares this one-character
string against the full field names. -/
def processMetaField (a : MetaAcc) (i : Nat) (out : Option String) : MetaAcc :=
  let field := jsHeadString (fieldNameAt i)
  match out with
  | none => a
  | some o =>
      if o = "" ∨ o = "0x" then a
      else
        let clean := jsSliceFrom2 o
        if field = "name" then { a with name := decodeStringReturn clean }
        else if field = "symbol" then { a with symbol := decodeStringReturn clean }
        else if field = "decimals" then { a with decimals := decodeUintReturn clean }
        else if field = "totalSupply" then
          { a with totalSupply := Int.ofNat (decodeUintReturn clean) }
        else a

/-- `getTokenMetadata`, given the four probe responses
(`response.data.transactions?.[0]?.output`; `none` models an absent
output, i.e. a failed or empty probe). -/
def getTokenMetadataModel (tokenAddress : String) (outs : List (Option String)) :
    TokenMetadata :=
  let a0 : MetaAcc := ⟨"Unknown", "UNKNOWN", 18, 0⟩
  let a1 := processMetaField a0 0 (outs.getD 0 none)
  let a2 := processMetaField a1 1 (outs.getD 1 none)
  let a3 := processMetaField a2 2 (outs.getD 2 none)
  let a4 := processMetaField a3 3 (outs.getD 3 none)
  ⟨tokenAddress, a4.name, a4.symbol, a4.decimals, a4.totalSupply⟩

/-! ### `serializeBigInts` (`index.ts`) -/

/-- JSON-like JavaScript values: bigints, strings, `null` (standing in
for any further non-object, non-array leaf), arrays, plain objects. -/
inductive JsValue : Type where
  | vbig : Int → JsValue
  | vstr : String → JsValue
  | vnull : JsValue
  | varr : List JsValue → JsValue
  | vobj : List (String × JsValue) → JsValue

mutual

/-- `serializeBigInts(obj)`: a bigint becomes its decimal string, arrays
and plain objects recurse over their members, anything else is returned
unchanged. -/
def serializeBigInts : JsValue → JsValue
  | .vbig i => .vstr (intToDecimal i)
  | .vstr s => .vstr s
  | .vnull => .vnull
  | .varr xs => .varr (serializeList xs)
  | .vobj fs => .vobj (serializeObj fs)

def serializeList : List JsValue → List JsValue
  | [] => []
  | x :: xs => serializeBigInts x :: serializeList xs

def serializeObj : List (String × JsValue) → List (String × JsValue)
  | [] => []
  | (k, v) :: fs => (k, serializeBigInts v) :: serializeObj fs

end

mutual

/-- Parse every string leaf of a serialized structure back to an integer
(the round-trip direction of the claim). -/
def deserializeBigInts : JsValue → JsValue
  | .vbig i => .vbig i
  | .vstr s => .vbig (parseIntDec s)
  | .vnull => .vnull
  | .varr xs => .varr (deserializeList xs)
  | .vobj fs => .vobj (deserializeObj fs)

def deserializeList : List JsValue → List JsValue
  | [] => []
  | x :: xs => deserializeBigInts x :: deserializeList xs

def deserializeObj : List (String × JsValue) → List (String × JsValue)
  | [] => []
  | (k, v) :: fs => (k, deserializeBigInts v) :: deserializeObj fs

end

/-- Nested structures of objects, arrays and arbitrary-precision
integers — the structures the round-trip claim quantifies over. -/
inductive OnlyBig : JsValue → Prop where
  | big (i : Int) : OnlyBig (.vbig i)
  | arr (xs : List JsValue) : (∀ x ∈ xs, OnlyBig x) → OnlyBig (.varr xs)
  | obj (fs : List (String × JsValue)) :
      (∀ kv ∈ fs, OnlyBig kv.2) → OnlyBig (.vobj fs)

/-! ### Concrete fixtures -/

def emptyRegState : RegState := {}

def exLogA100 : DecodedLog := { address := "0xa", body := [100] }

def exLogA50 : DecodedLog := { address := "0xa", body := [50] }

def exLogB7 : DecodedLog := { address := "0xb", body := [7] }

/-- Two decoded Transfer events to the wallet for token `0xa` (amounts
100 and 50) and one for token `0xb` (amount 7). -/
def exTokenLogs : List (Option DecodedLog) :=
  [some exLogA100, some exLogA50, some exLogB7]

def ex721First : DecodedLog :=
  { address := "0xc", topic0 := ERC721_TRANSFER_TOPIC, body := [5] }

def ex721Second : DecodedLog :=
  { address := "0xc", topic0 := ERC721_TRANSFER_TOPIC, body := [5],
    blockNumber := 9 }

def ex1155Log : DecodedLog :=
  { address := "0xd", topic0 := ERC1155_TRANSFER_SINGLE_TOPIC, body := [7, 3] }

def exNFTLogs : List (Option DecodedLog) :=
  [some ex721First, none, some ex1155Log, some ex721Second]

/-- A standard ABI `string`-return payload encoding `"USDC"`: a 32-byte
offset word (`0x20`), a 32-byte length word (`4`), then the UTF-8 bytes
padded to a 32-byte word. -/
def usdcSymbolReturn : String :=
  "0x0000000000000000000000000000000000000000000000000000000000000020" ++
  "0000000000000000000000000000000000000000000000000000000000000004" ++
  "5553444300000000000000000000000000000000000000000000000000000000"

def exWallet : String := "0xAb5801a7D398351b8bE11C439e05C5B3259aeC9B"

/-! ### Claim C5 -/

/-- C5: for every chain id not present in the configuration catalog,
`initialize` (`ensureChain`) fails with the unsupported-chain error and
the client map is left unchanged — no client handle is cached for that
chain id. -/
theorem ensureChain_unsupported (chainId : Nat) (s : RegState)
    (h : aLookup SUPPORTED_CHAINS chainId = none) :
    ensureChain chainId s =
      Except.error ("Chain ID " ++ toString chainId ++ " is not supported") ∧
    stateAfterEnsure chainId s = s ∧
    aLookup (stateAfterEnsure chainId s).clients chainId =
      aLookup s.clients chainId := by
  have h1 : ensureChain chainId s =
      Except.error ("Chain ID " ++ toString chainId ++ " is not supported") := by
    unfold ensureChain
    rw [h]
  have h2 : stateAfterEnsure chainId s = s := by
    unfold stateAfterEnsure
    rw [h1]
  exact ⟨h1, h2, by rw [h2]⟩

/-- Witness for C5 at the concrete unsupported chain id 2 and the initial
registry state. -/
theorem ensureChain_unsupported_witness :
    aLookup SUPPORTED_CHAINS 2 = none ∧
    (ensureChain 2 emptyRegState =
      Except.error ("Chain ID " ++ toString (2 : Nat) ++ " is not supported") ∧
    stateAfterEnsure 2 emptyRegState = emptyRegState ∧
    aLookup (stateAfterEnsure 2 emptyRegState).clients 2 =
      aLookup emptyRegState.clients 2) := by
  have h : aLookup SUPPORTED_CHAINS 2 = none := by decide
  exact ⟨h, ensureChain_unsupported 2 emptyRegState h⟩

/-! ### Claim C6 -/

/-- C6: for every chain id in the catalog, a second `initialize`
(`ensureChain`) after a successful first call is a no-op — it returns the
state unchanged (so the cached client handle and the shared decoder are
exactly the ones of the first call) and a cached handle exists. -/
theorem ensureChain_idempotent (chainId : Nat) (s s1 : RegState)
    (h : ensureChain chainId s = Except.ok s1) :
    ensureChain chainId s1 = Except.ok s1 ∧
    ∃ c, getClient chainId s1 = Except.ok c := by
  unfold ensureChain at h
  rcases hcat : aLookup SUPPORTED_CHAINS chainId with _ | cfg
  · rw [hcat] at h
    simp at h
  · rw [hcat] at h
    obtain ⟨c, hc⟩ : ∃ c, aLookup s1.clients chainId = some c := by
      rcases hs : aLookup s.clients chainId with _ | c0
      · rw [hs] at h
        rcases hdec : s.decoderCreatedAt with _ | d <;>
          (rw [hdec] at h
           injection h with h2
           refine ⟨⟨cfg.url, (s.apiKeyEnv).getD "your_api_key", s.nextTick⟩, ?_⟩
           rw [← h2]
           exact aLookup_aSet_self s.clients chainId
             ⟨cfg.url, (s.apiKeyEnv).getD "your_api_key", s.nextTick⟩)
      · rw [hs] at h
        injection h with h2
        rw [← h2]
        exact ⟨c0, hs⟩
    constructor
    · unfold ensureChain
      rw [hcat, hc]
    · exact ⟨c, by unfold getClient; rw [hc]⟩

/-- Witness for C6 at the concrete chain id 1 and the initial registry
state. -/
theorem ensureChain_idempotent_witness :
    ensureChain 1 emptyRegState = Except.ok (stateAfterEnsure 1 emptyRegState) ∧
    (ensureChain 1 (stateAfterEnsure 1 emptyRegState) =
      Except.ok (stateAfterEnsure 1 emptyRegState) ∧
    ∃ c, getClient 1 (stateAfterEnsure 1 emptyRegState) = Except.ok c) := by
  have h : ensureChain 1 emptyRegState =
      Except.ok (stateAfterEnsure 1 emptyRegState) := by rfl
  exact ⟨h, ensureChain_idempotent 1 emptyRegState _ h⟩

/-! ### Claim C10 -/

/-- C10: the ERC721 Transfer topic constant equals the ERC20 Transfer
topic constant, so every decoded log whose `topic0` is this shared hash
is recorded by `getNFTBalances` as an ERC721 holding with balance
exactly 1 — plain ERC20 Transfers are indistinguishable from ERC721
transfers at this classification step. -/
theorem erc721_topic_shared :
    ERC721_TRANSFER_TOPIC = ERC20_TRANSFER_TOPIC ∧
    ∀ (m : List (String × NFTBalance)) (log : DecodedLog),
      log.topic0 = ERC20_TRANSFER_TOPIC →
      nftStep m log =
        aSet m (nftKey log)
          ⟨log.address, intToDecimal (log.body.headD 0), "ERC721", 1⟩ := by
  refine ⟨rfl, ?_⟩
  intro m log h
  have h721 : log.topic0 = ERC721_TRANSFER_TOPIC := h
  unfold nftStep
  rw [if_pos h721]

/-- Witness for C10 at a concrete ERC20-Transfer-topic log. -/
theorem erc721_topic_shared_witness :
    ex721First.topic0 = ERC20_TRANSFER_TOPIC ∧
    nftStep [] ex721First =
      aSet [] (nftKey ex721First)
        ⟨ex721First.address, intToDecimal (ex721First.body.headD 0), "ERC721", 1⟩ :=
  ⟨rfl, erc721_topic_shared.2 [] ex721First rfl⟩

/-! ### Claims C3 and C8: `getTokenMetadata` -/

/-- The `forEach` body of `getTokenMetadata` never changes the
accumulator: `field` is the first character of the key string (`"n"`,
`"s"`, `"d"`, `"t"`), so no `switch` case ever matches. -/
theorem processMetaField_fix (a : MetaAcc) (i : Nat) (o : Option String) :
    processMetaField a i o = a := by
  rcases i with _ | _ | _ | _ | i <;>
    (cases o with
     | none => rfl
     | some s =>
         simp only [processMetaField]
         split
         · rfl
         · rfl)

/-- `getTokenMetadata` always returns every introspection field at its
default, whatever the probes returned. -/
theorem getTokenMetadataModel_defaults (addr : String) (outs : List (Option String)) :
    getTokenMetadataModel addr outs = ⟨addr, "Unknown", "UNKNOWN", 18, 0⟩ := by
  simp [getTokenMetadataModel, processMetaField_fix]

set_option maxRecDepth 4000 in
/-- C3 (code bug): the source's own string-decoding case body does
decode the standard offset/length payload for `"USDC"` to exactly
`"USDC"`, but `getTokenMetadata` leaves the symbol at `"UNKNOWN"` even
when the symbol probe returns that payload, because
`const [field] = Object.keys(this.ERC20_INTERFACES)[index]` binds the
first character of the key, so the decoding `switch` is unreachable. -/
theorem getTokenMetadata_usdc_not_decoded :
    decodeStringReturn (jsSliceFrom2 usdcSymbolReturn) = "USDC" ∧
    (getTokenMetadataModel "0xtoken"
        [none, some usdcSymbolReturn, none, none]).symbol = "UNKNOWN" := by
  constructor
  · decide
  · rw [getTokenMetadataModel_defaults]

/-- C8: every introspection field whose probe call fails (`none`) or
returns empty data (`"0x"`) is left at its documented default — name
`"Unknown"`, symbol `"UNKNOWN"`, decimals 18, totalSupply 0 — without
failing the other fields or the overall call (the model is a total
function). -/
theorem getTokenMetadata_fallback_defaults (addr : String)
    (outs : List (Option String)) :
    ((outs.getD 0 none = none ∨ outs.getD 0 none = some "0x") →
      (getTokenMetadataModel addr outs).name = "Unknown") ∧
    ((outs.getD 1 none = none ∨ outs.getD 1 none = some "0x") →
      (getTokenMetadataModel addr outs).symbol = "UNKNOWN") ∧
    ((outs.getD 2 none = none ∨ outs.getD 2 none = some "0x") →
      (getTokenMetadataModel addr outs).decimals = 18) ∧
    ((outs.getD 3 none = none ∨ outs.getD 3 none = some "0x") →
      (getTokenMetadataModel addr outs).totalSupply = 0) := by
  rw [getTokenMetadataModel_defaults]
  exact ⟨fun _ => rfl, fun _ => rfl, fun _ => rfl, fun _ => rfl⟩

/-- Witness for C8: with a failed name probe and an empty decimals
return, the name stays `"Unknown"` and the decimals fall back to 18. -/
theorem getTokenMetadata_fallback_witness :
    (getTokenMetadataModel "0xtok" [none, some "0x", some "0x", none]).decimals = 18 ∧
    (getTokenMetadataModel "0xtok" [none, some "0x", some "0x", none]).name = "Unknown" :=
  ⟨(getTokenMetadata_fallback_defaults "0xtok"
      [none, some "0x", some "0x", none]).2.2.1 (Or.inr rfl),
   (getTokenMetadata_fallback_defaults "0xtok"
      [none, some "0x", some "0x", none]).1 (Or.inl rfl)⟩

/-! ### Claim C4: null entries in decoded batches -/

/-- Folding a decoded batch skips its `null` entries: the fold equals the
fold of the batch with the nulls dropped. -/
theorem foldl_optStep_dropNulls {α : Type} (f : α → DecodedLog → α) :
    ∀ (logs : List (Option DecodedLog)) (m : α),
      logs.foldl (optStep f) m = (dropNulls logs).foldl (optStep f) m := by
  intro logs
  induction logs with
  | nil => intro m; rfl
  | cons o rest ih =>
      intro m
      cases o with
      | none =>
          calc List.foldl (optStep f) m (none :: rest)
              = List.foldl (optStep f) m rest := rfl
            _ = List.foldl (optStep f) m (dropNulls rest) := ih m
            _ = List.foldl (optStep f) m (dropNulls (none :: rest)) := by
                  simp [dropNulls]
      | some log =>
          calc List.foldl (optStep f) m (some log :: rest)
              = List.foldl (optStep f) (f m log) rest := rfl
            _ = List.foldl (optStep f) (f m log) (dropNulls rest) := ih (f m log)
            _ = List.foldl (optStep f) m (dropNulls (some log :: rest)) := by
                  simp [dropNulls, optStep]

/-- C4 counterexample: a decoded batch holding a `null` entry makes
`getDexSwaps` fail — `decodedLogs.map` reads fields of the `null` entry,
which throws — refuting the claim that all three consumers skip `null`
entries and never error on them. -/
theorem getDexSwaps_null_counterexample :
    getDexSwapsOfDecoded [none] = none ∧
    getTokenBalancesOfDecoded [none] = [] ∧
    getNFTBalancesOfDecoded [none] = [] :=
  ⟨rfl, rfl, rfl⟩

/-- C4 (amended): `getTokenBalances` and `getNFTBalances` skip the
`null` entries of a decoded batch before accessing their fields
(processing a batch equals processing it with the nulls dropped) and
never error; `getDexSwaps` does not skip them — it errors on every batch
containing a `null` entry and succeeds exactly on null-free batches. -/
theorem nullSkipping_amended (logs : List (Option DecodedLog)) :
    getTokenBalancesOfDecoded logs = getTokenBalancesOfDecoded (dropNulls logs) ∧
    getNFTBalancesOfDecoded logs = getNFTBalancesOfDecoded (dropNulls logs) ∧
    (none ∈ logs → getDexSwapsOfDecoded logs = none) ∧
    (none ∉ logs →
      getDexSwapsOfDecoded logs = some ((logs.filterMap id).map dexSwapOfLog)) := by
  refine ⟨?_, ?_, ?_, ?_⟩
  · unfold getTokenBalancesOfDecoded tbFold
    rw [foldl_optStep_dropNulls tbStep logs]
  · unfold getNFTBalancesOfDecoded nftFold
    rw [foldl_optStep_dropNulls nftStep logs]
  · intro hmem
    induction logs with
    | nil => cases hmem
    | cons o rest ih =>
        cases o with
        | none => rfl
        | some log =>
            have hrest : none ∈ rest := by
              rcases List.mem_cons.mp hmem with h | h
              · cases h
              · exact h
            show (match getDexSwapsOfDecoded rest with
              | none => none
              | some swaps => some (dexSwapOfLog log :: swaps)) = none
            rw [ih hrest]
  · intro hmem
    induction logs with
    | nil => rfl
    | cons o rest ih =>
        cases o with
        | none => exact absurd (List.mem_cons_self none rest) hmem
        | some log =>
            have hrest : none ∉ rest := fun h => hmem (List.mem_cons_of_mem _ h)
            show (match getDexSwapsOfDecoded rest with
              | none => none
              | some swaps => some (dexSwapOfLog log :: swaps)) = _
            rw [ih hrest]
            simp [List.filterMap_cons]

/-- Witness for C4's amended statement at a concrete batch with a `null`
entry. -/
theorem nullSkipping_amended_witness :
    getTokenBalancesOfDecoded [some exLogA100, none] =
      getTokenBalancesOfDecoded (dropNulls [some exLogA100, none]) ∧
    (none : Option DecodedLog) ∈ [some exLogA100, none] ∧
    getDexSwapsOfDecoded [some exLogA100, none] = none := by
  have h := nullSkipping_amended [some exLogA100, none]
  exact ⟨h.1, by simp, h.2.2.1 (by simp)⟩

/-! ### Claim C1: `getTokenBalances` aggregation -/

/-- Folding a decoded batch into a starting per-token map: the entry for
`t` exists iff it existed before or some decoded event of the batch was
emitted by `t`, and it accumulates the per-token sum of first body
fields. -/
theorem tbFold_lookup :
    ∀ (logs : List (Option DecodedLog)) (m : List (String × Int)) (t : String),
      aLookup (List.foldl (optStep tbStep) m logs) t =
        if (aLookup m t).isSome || hasAddr logs t
        then some ((aLookup m t).getD 0 + sumContrib logs t) else none := by
  intro logs
  induction logs with
  | nil =>
      intro m t
      rcases h : aLookup m t with _ | v <;> simp [h, hasAddr, sumContrib]
  | cons o rest ih =>
      intro m t
      cases o with
      | none =>
          simpa [hasAddr, sumContrib, optStep] using ih m t
      | some log =>
          have hstep : List.foldl (optStep tbStep) m (some log :: rest) =
              List.foldl (optStep tbStep) (tbStep m log) rest := rfl
          rw [hstep, ih (tbStep m log) t]
          by_cases ha : log.address = t
          · subst ha
            rw [show aLookup (tbStep m log) log.address =
                some ((aLookup m log.address).getD 0 + log.body.headD 0) from
              aLookup_aSet_self m log.address _]
            simp [hasAddr, sumContrib, add_assoc]
          · rw [show aLookup (tbStep m log) t = aLookup m t from
              aLookup_aSet_ne m log.address t _ (fun he => ha he.symm)]
            simp [hasAddr, sumContrib, ha]

/-- C1: `getTokenBalances` folds the decoded Transfer events into a map
from emitting contract to the sum of the first decoded body field,
initializing absent entries to zero: the resulting entry for a token `t`
is exactly the batch's per-token sum (and is absent when no event of the
batch came from `t`); on the concrete batch of two events for token
`0xa` (amounts 100 and 50) and one for `0xb` (amount 7), the result is
exactly the rows `{token: 0xa, balance: 150}` and `{token: 0xb,
balance: 7}`. -/
theorem getTokenBalances_spec (logs : List (Option DecodedLog)) (t : String) :
    aLookup (tbFold logs) t =
      (if hasAddr logs t then some (sumContrib logs t) else none) ∧
    getTokenBalancesOfDecoded exTokenLogs =
      [⟨"0xa", 150⟩, ⟨"0xb", 7⟩] := by
  constructor
  · have h := tbFold_lookup logs [] t
    simpa [tbFold, aLookup] using h
  · decide

/-! ### Claim C2: `getNFTBalances` deduplication and last-event-wins -/

/-- Invariant of the NFT holdings map: its keys are distinct, every key
is the `address-tokenId` template of its entry, and every ERC721 entry
carries balance 1. -/
def NFTInv (m : List (String × NFTBalance)) : Prop :=
  (m.map Prod.fst).Nodup ∧
  ∀ p ∈ m, p.1 = p.2.contractAddress ++ "-" ++ p.2.tokenId ∧
    (p.2.standard = "ERC721" → p.2.balance = 1)

theorem nftStep_inv (m : List (String × NFTBalance)) (log : DecodedLog)
    (h : NFTInv m) : NFTInv (nftStep m log) := by
  unfold nftStep
  split
  · next h721 =>
      refine ⟨aSet_keys_nodup _ _ _ h.1, ?_⟩
      intro p hp
      rcases aSet_subset _ _ _ p hp with h1 | h1
      · subst h1
        exact ⟨rfl, fun _ => rfl⟩
      · exact h.2 p h1
  · split
    · next h1155 =>
        refine ⟨aSet_keys_nodup _ _ _ h.1, ?_⟩
        intro p hp
        rcases aSet_subset _ _ _ p hp with h1 | h1
        · subst h1
          refine ⟨rfl, fun hstd => ?_⟩
          have h2 : ("ERC1155" : String) = "ERC721" := hstd
          exact absurd h2 (by decide)
        · exact h.2 p h1
    · exact h

theorem nftFold_inv (logs : List (Option DecodedLog)) : NFTInv (nftFold logs) := by
  have main : ∀ (ls : List (Option DecodedLog)) (m : List (String × NFTBalance)),
      NFTInv m → NFTInv (List.foldl (optStep nftStep) m ls) := by
    intro ls
    induction ls with
    | nil => intro m hm; exact hm
    | cons o rest ih =>
        intro m hm
        cases o with
        | none => exact ih m hm
        | some log => exact ih _ (nftStep_inv m log hm)
  exact main logs [] ⟨List.nodup_nil, by simp⟩

/-- The C2 properties of `getNFTBalances`: (1) the output never holds
two entries for the same `(contract address, tokenId)` key; (2) the last
event of the decoded sequence for a key determines its entry, whatever
came before; (3) every ERC721 entry of the output has balance exactly 1;
(4) for an ERC1155 `TransferSingle` event the stored entry's balance is
the decoded value field, independent of the prior map content — not
netted against prior holdings. -/
def nftLastWinsSpec (logs : List (Option DecodedLog)) : Prop :=
  List.Pairwise (fun a b : NFTBalance =>
      ¬(a.contractAddress = b.contractAddress ∧ a.tokenId = b.tokenId))
    (getNFTBalancesOfDecoded logs) ∧
  (∀ (pre : List (Option DecodedLog)) (log : DecodedLog), isNFTRelevant log →
    aLookup (nftFold (pre ++ [some log])) (nftKey log) = some (nftEntryOf log)) ∧
  (∀ e ∈ getNFTBalancesOfDecoded logs, e.standard = "ERC721" → e.balance = 1) ∧
  (∀ (m : List (String × NFTBalance)) (log : DecodedLog),
    log.topic0 = ERC1155_TRANSFER_SINGLE_TOPIC →
    nftStep m log = aSet m (nftKey log)
      ⟨log.address, intToDecimal (log.body.headD 0), "ERC1155", log.body.getD 1 0⟩)

/-- C2: `getNFTBalances` keys entries by `(contract address, tokenId)`;
the last event in the decoded sequence for a key overwrites earlier
entries, so the output never holds duplicate keys; ERC721-topic events
store balance exactly 1 and ERC1155 `TransferSingle` events store the
decoded value field without netting. -/
theorem getNFTBalances_lastWins (logs : List (Option DecodedLog)) :
    nftLastWinsSpec logs := by
  obtain ⟨hnodup, hinv⟩ := nftFold_inv logs
  refine ⟨?_, ?_, ?_, ?_⟩
  · unfold getNFTBalancesOfDecoded
    rw [List.pairwise_map]
    have hp : List.Pairwise (fun p q : String × NFTBalance => p.1 ≠ q.1)
        (nftFold logs) := List.pairwise_map.mp hnodup
    refine List.Pairwise.imp_of_mem ?_ hp
    intro p q hpm hqm hne hco
    obtain ⟨hkp, -⟩ := hinv p hpm
    obtain ⟨hkq, -⟩ := hinv q hqm
    exact hne (by rw [hkp, hkq, hco.1, hco.2])
  · intro pre log hrel
    unfold nftFold
    rw [List.foldl_append]
    show aLookup (nftStep (List.foldl (optStep nftStep) [] pre) log)
      (nftKey log) = some (nftEntryOf log)
    rcases hrel with h721 | h1155
    · unfold nftStep nftEntryOf
      rw [if_pos h721, if_pos h721, aLookup_aSet_self]
    · have hne : ¬log.topic0 = ERC721_TRANSFER_TOPIC := by
        rw [h1155]
        decide
      unfold nftStep nftEntryOf
      rw [if_neg hne, if_pos h1155, if_neg hne, aLookup_aSet_self]
  · intro e he hstd
    obtain ⟨p, hpm, hpe⟩ := List.mem_map.mp he
    obtain ⟨-, himp⟩ := hinv p hpm
    rw [← hpe] at hstd ⊢
    exact himp hstd
  · intro m log h1155
    have hne : ¬log.topic0 = ERC721_TRANSFER_TOPIC := by
      rw [h1155]
      decide
    unfold nftStep
    rw [if_neg hne, if_pos h1155]

/-- Witness for C2: on the concrete batch, and for its two ERC721 events
for the same `(0xc, 5)` key, the final entry is the one of the later
event. -/
theorem getNFTBalances_lastWins_witness :
    nftLastWinsSpec exNFTLogs ∧
    aLookup (nftFold ([some ex721First, none, some ex1155Log] ++ [some ex721Second]))
        (nftKey ex721Second) = some (nftEntryOf ex721Second) :=
  ⟨getNFTBalances_lastWins exNFTLogs,
   (getNFTBalances_lastWins exNFTLogs).2.1 [some ex721First, none, some ex1155Log]
     ex721Second (Or.inl rfl)⟩

/-! ### Claim C7: the query built by `getTokenBalances` -/

theorem data_mk (l : List Char) : (String.mk l).data = l := rfl

/-- The properties C7 asserts of the query: `fromBlock` is the given
value or 0 when absent; there is a single log filter whose topics list
constrains topic0 to the ERC20 Transfer hash, leaves the second topic
unconstrained (`null`), and puts the padded lowercased wallet address in
the third position — the `to` indexed parameter; and the padded address
is the 32-byte (64 hex characters plus `0x`) left-zero-padding of the
lowercased wallet. -/
def tokenBalancesQuerySpec (w : String) (fb : Option Nat) : Prop :=
  (buildTokenBalancesQuery w fb).fromBlock = fb.getD 0 ∧
  (buildTokenBalancesQuery w fb).logSelections =
    [⟨[some [ERC20_TRANSFER_TOPIC], none,
        some [zeroPadValue32 (jsToLower w)]]⟩] ∧
  (zeroPadValue32 (jsToLower w)).data =
    '0' :: 'x' :: (List.replicate 24 '0' ++ (jsToLower w).data.drop 2) ∧
  (zeroPadValue32 (jsToLower w)).data.length = 66

/-- C7: for every wallet address (42 characters, `0x` plus 40 hex
digits) and optional `fromBlock`, the query built by `getTokenBalances`
satisfies `tokenBalancesQuerySpec`. -/
theorem getTokenBalancesQuery_spec (w : String) (fb : Option Nat)
    (h : w.data.length = 42) : tokenBalancesQuerySpec w fb := by
  have hlen : ((jsToLower w).data.drop 2).length = 40 := by
    simp [jsToLower, h]
  have hdata : (zeroPadValue32 (jsToLower w)).data =
      '0' :: 'x' :: (List.replicate 24 '0' ++ (jsToLower w).data.drop 2) := by
    simp [zeroPadValue32, data_mk, hlen]
  refine ⟨rfl, rfl, hdata, ?_⟩
  rw [hdata]
  simp [hlen]

/-- Witness for C7 at a concrete checksummed wallet address and
`fromBlock = some 5`. -/
theorem getTokenBalancesQuery_witness :
    exWallet.data.length = 42 ∧ tokenBalancesQuerySpec exWallet (some 5) :=
  ⟨by decide, getTokenBalancesQuery_spec exWallet (some 5) (by decide)⟩

/-! ### Claim C9: `serializeBigInts` round-trip -/

theorem serializeList_eq_map (xs : List JsValue) :
    serializeList xs = xs.map serializeBigInts := by
  induction xs with
  | nil => rfl
  | cons x xs ih => simp [serializeList, ih]

theorem serializeObj_eq_map (fs : List (String × JsValue)) :
    serializeObj fs = fs.map fun kv => (kv.1, serializeBigInts kv.2) := by
  induction fs with
  | nil => rfl
  | cons kv fs ih =>
      obtain ⟨k, v⟩ := kv
      simp [serializeObj, ih]

theorem deserializeList_eq_map (xs : List JsValue) :
    deserializeList xs = xs.map deserializeBigInts := by
  induction xs with
  | nil => rfl
  | cons x xs ih => simp [deserializeList, ih]

theorem deserializeObj_eq_map (fs : List (String × JsValue)) :
    deserializeObj fs = fs.map fun kv => (kv.1, deserializeBigInts kv.2) := by
  induction fs with
  | nil => rfl
  | cons kv fs ih =>
      obtain ⟨k, v⟩ := kv
      simp [deserializeObj, ih]

/-- C9: for every nested structure of objects, arrays and
arbitrary-precision integers, applying `serializeBigInts` and then
parsing every resulting string leaf back to an integer reproduces the
original structure exactly. -/
theorem serializeBigInts_roundtrip (v : JsValue) (h : OnlyBig v) :
    deserializeBigInts (serializeBigInts v) = v := by
  induction h with
  | big i =>
      simp [serializeBigInts, deserializeBigInts, parseIntDec_intToDecimal]
  | arr xs hxs ih =>
      simp only [serializeBigInts, deserializeBigInts, serializeList_eq_map,
        deserializeList_eq_map, List.map_map]
      congr 1
      have h2 : ∀ x ∈ xs, (deserializeBigInts ∘ serializeBigInts) x = id x :=
        fun x hx => ih x hx
      rw [List.map_congr_left h2, List.map_id]
  | obj fs hfs ih =>
      simp only [serializeBigInts, deserializeBigInts, serializeObj_eq_map,
        deserializeObj_eq_map, List.map_map]
      congr 1
      have h2 : ∀ kv ∈ fs,
          ((fun kv : String × JsValue => (kv.1, deserializeBigInts kv.2)) ∘
            fun kv : String × JsValue => (kv.1, serializeBigInts kv.2)) kv = id kv :=
        fun kv hkv => by simp [ih kv hkv]
      rw [List.map_congr_left h2, List.map_id]

def exBigInt : Int := 1267650600228229401496703205376

def exRound : JsValue :=
  JsValue.varr [JsValue.vbig exBigInt, JsValue.vobj [("a", JsValue.vbig (-7))]]

/-- Witness for C9 on a structure holding `2 ^ 100` (beyond 64-bit
range) and a negative bigint inside a nested object. -/
theorem serializeBigInts_roundtrip_witness :
    OnlyBig exRound ∧ deserializeBigInts (serializeBigInts exRound) = exRound := by
  have h : OnlyBig exRound := by
    show OnlyBig (JsValue.varr
      [JsValue.vbig exBigInt, JsValue.vobj [("a", JsValue.vbig (-7))]])
    refine OnlyBig.arr _ ?_
    intro x hx
    simp only [List.mem_cons, List.not_mem_nil, or_false] at hx
    rcases hx with hx | hx
    · subst hx
      exact OnlyBig.big _
    · subst hx
      refine OnlyBig.obj _ ?_
      intro kv hkv
      simp only [List.mem_cons, List.not_mem_nil, or_false] at hkv
      subst hkv
      exact OnlyBig.big _
  exact ⟨h, serializeBigInts_roundtrip exRound h⟩
